import Mathlib

/-!
# Verification of the Conquest matchmaking coordinator

A shallow embedding of the matchmaking subsystem of the Conquest client
(`MatchmakingService`): queue-entry lifecycle, opponent discovery, the
transactional match creation, the match-notification handler, and the
cleanup passes.  Times are naturals (milliseconds); the remote document
store is a pair of association lists (queue entries and matches); each
client's ambient mutable fields are an explicit `ClientState` record.
JavaScript's `||` on numbers (resp. strings) is modelled by `jsOr`
(resp. `jsOrS`), where `0` (resp. `""`) plays the role of the falsy
values `0`/`undefined`.  Store round-trips are modelled as total reads
of the current store; a thrown transaction error is the `Except.error`
branch of `matchTxn`.
-/

namespace Conquest

/-- JS `a || b` on numbers: `0` (and an absent field) is falsy. -/
def jsOr (a b : Nat) : Nat := if a = 0 then b else a

/-- JS `a || b` on strings: `""` (and an absent field) is falsy. -/
def jsOrS (a b : String) : String := if a = "" then b else a

/-- The authenticated principal: `uid` plus an optional e-mail address. -/
structure AuthUser where
  uid : String
  email : Option String
deriving DecidableEq

/-- `currentUser.email?.split('@')[0] || 'Player'` — the display name
derived from the e-mail local part. -/
def usernameOf (u : AuthUser) : String :=
  match u.email with
  | none => "Player"
  | some e =>
    let p := (e.splitOn "@").headD ""
    if p = "" then "Player" else p

/-- A document of the `matchmaking_queue` collection. -/
structure QueueData where
  userId : String
  username : String
  rating : Nat
  timestamp : Nat
  status : String
  lastHeartbeat : Nat
  sessionId : String
deriving DecidableEq

/-- One player's info inside a match document (`MatchmakingPlayer`). -/
structure MatchmakingPlayer where
  userId : String
  username : String
  rating : Nat
  timestamp : Nat
deriving DecidableEq

/-- A document of the `matches` collection (sans its store-assigned id). -/
structure MatchDoc where
  player1 : MatchmakingPlayer
  player2 : MatchmakingPlayer
  status : String
  createdAt : Nat
deriving DecidableEq

/-- A cached queue snapshot handed to discovery (`QueuePlayer`). -/
structure QueuePlayer where
  id : String
  userId : String
  username : String
  rating : Nat
  timestamp : Nat
  status : String
deriving DecidableEq

/-- The shared remote store: the two collections, keyed by document id. -/
structure Store where
  queue : List (String × QueueData)
  matchDocs : List (String × MatchDoc)
deriving DecidableEq

/-- `getDoc(doc(queueRef, id))`: read a queue document by id. -/
def getQueueDoc (s : Store) (id : String) : Option QueueData :=
  (s.queue.find? (fun p => p.1 = id)).map Prod.snd

/-- `now - (data.lastHeartbeat || data.timestamp || 0)` — the age a
document is judged by, exactly as the source computes it. -/
def ageOf (now : Nat) (d : QueueData) : Nat :=
  now - jsOr d.lastHeartbeat (jsOr d.timestamp 0)

/-- The `MatchmakingService` instance fields that the matchmaking logic
mutates.  Listeners and the heartbeat timer are modelled by whether they
are attached (`true`) or nulled (`false`). -/
structure ClientState where
  currentQueueId : Option String
  currentUserId : Option String
  isMatched : Bool
  isCreatingMatch : Bool
  isJoiningQueue : Bool
  heartbeatOn : Bool
  matchListenerOn : Bool
  queueListenerOn : Bool
deriving DecidableEq

/-- `cleanup()`: stop the heartbeat, unsubscribe and null both
listeners, clear the session ids, reset the joining/creating flags and
deliberately keep `isMatched` as-is. -/
def cleanup (st : ClientState) : ClientState :=
  { st with
    heartbeatOn := false
    matchListenerOn := false
    queueListenerOn := false
    currentQueueId := none
    currentUserId := none
    isJoiningQueue := false
    isCreatingMatch := false }

/-- The match document written on a successful transaction: `player1` is
the initiator, `player2` mixes the fresh snapshot's username (cached
fallback) with the cached rating and timestamp. -/
def mkMatchDoc (u : AuthUser) (o : QueuePlayer) (oppData : QueueData) (now : Nat) : MatchDoc :=
  { player1 := { userId := u.uid, username := usernameOf u, rating := 1000, timestamp := now }
    player2 := { userId := o.userId, username := jsOrS oppData.username o.username
                 rating := o.rating, timestamp := o.timestamp }
    status := "ready"
    createdAt := now }

/-- The body of `runTransaction` in `createMatchFromQueue`: fresh reads
of both queue documents, the precondition checks in source order, then
the atomic write set (create the match, delete only the initiator's own
queue entry).  A thrown error is the `Except.error` branch. -/
def matchTxn (s : Store) (now : Nat) (u : AuthUser) (o : QueuePlayer)
    (currentQueueId mid : String) : Except String Store :=
  match getQueueDoc s o.id with
  | none => Except.error "opponent-removed"
  | some oppData =>
    match getQueueDoc s currentQueueId with
    | none => Except.error "current-removed"
    | some curData =>
      if oppData.status ≠ "searching" then Except.error "opponent-not-searching"
      else if curData.status ≠ "searching" then Except.error "current-not-searching"
      else if ageOf now oppData > 10000 ∨ ageOf now curData > 10000 then
        Except.error "stale-entry"
      else
        Except.ok
          { queue := s.queue.filter (fun p => decide (p.1 ≠ currentQueueId))
            matchDocs := (mid, mkMatchDoc u o oppData now) :: s.matchDocs }

/-- `createMatchFromQueue`: the early `isMatched` / missing
`currentQueueId` returns, the local `isCreatingMatch` latch, the
transaction, and the catch block that resets `isMatched` and
`isCreatingMatch` instead of rethrowing (the function is total: every
transaction failure is absorbed).  The source sets
`isCreatingMatch := true` on entry and resets it on the early return and
in the catch; each branch below carries the composed net effect of those
flag writes, since no other code observes the call's interior. -/
def createMatchFromQueue (st : ClientState) (s : Store) (now : Nat)
    (u : AuthUser) (o : QueuePlayer) (mid : String) : ClientState × Store :=
  if st.isMatched then (st, s)
  else
    match st.currentQueueId with
    | none => ({ st with isCreatingMatch := false }, s)
    | some qid =>
      match matchTxn s now u o qid mid with
      | Except.ok s2 => (cleanup { st with isCreatingMatch := true, isMatched := true }, s2)
      | Except.error _ => ({ st with isCreatingMatch := false, isMatched := false }, s)

/-- `isValidOpponent`: reject own userId / own entry id, then re-read
the candidate fresh and reject a missing document, an age above the
30000 ms discovery bound, or a non-`searching` status. -/
def isValidOpponent (s : Store) (now : Nat) (currentUserId : String)
    (currentQueueId : Option String) (o : QueuePlayer) : Bool :=
  if o.userId = currentUserId ∨ some o.id = currentQueueId then false
  else
    match getQueueDoc s o.id with
    | none => false
    | some data =>
      if ageOf now data > 30000 then false
      else if data.status ≠ "searching" then false
      else true

/-- The `potentialOpponent` record both discovery loops build from a
queue snapshot (`rating: data.rating || 1000`). -/
def toQueuePlayer (i : String) (d : QueueData) : QueuePlayer :=
  { id := i, userId := d.userId, username := d.username
    rating := jsOr d.rating 1000, timestamp := d.timestamp, status := d.status }

/-- The loop body of `scanQueueForOpponents`: stop when matched or a
creation is in flight, skip the own entry and the own userId, otherwise
latch `isCreatingMatch`, validate, and either attempt the transactional
creation (and stop: the source `break`s after the attempt) or release
the latch and move on (the latch set and its reset on the invalid branch
are composed into the recursive call's state). -/
def scanLoop (st : ClientState) (s : Store) (now : Nat) (u : AuthUser)
    (mid : String) : List (String × QueueData) → ClientState × Store
  | [] => (st, s)
  | (i, d) :: rest =>
    if st.isMatched || st.isCreatingMatch then (st, s)
    else if some i = st.currentQueueId then scanLoop st s now u mid rest
    else if d.userId = u.uid then scanLoop st s now u mid rest
    else
      if isValidOpponent s now u.uid st.currentQueueId (toQueuePlayer i d) then
        createMatchFromQueue { st with isCreatingMatch := true } s now u (toQueuePlayer i d) mid
      else
        scanLoop { st with isCreatingMatch := false } s now u mid rest

/-- `scanQueueForOpponents`: the immediate scan over the `searching`
query snapshot, guarded by `currentQueueId` / `isMatched` /
`isCreatingMatch`. -/
def scanQueueForOpponents (st : ClientState) (s : Store) (now : Nat)
    (u : AuthUser) (mid : String) : ClientState × Store :=
  if st.currentQueueId = none ∨ st.isMatched = true ∨ st.isCreatingMatch = true then (st, s)
  else scanLoop st s now u mid (s.queue.filter (fun p => decide (p.2.status = "searching")))

/-- `handleMatch` inside `setupMatchListeners` (both listeners share this
handler): ignore a match whose `createdAt || 0` is at most the session's
`joinedAt`; otherwise accept once, guarded by the `isMatched` and
`hasFoundMatch` latches.  Returns (callback invoked?, isMatched',
hasFoundMatch'). -/
def handleMatch (joinedAt : Nat) (isMatched hasFoundMatch : Bool)
    (m : MatchDoc) : Bool × Bool × Bool :=
  if jsOr m.createdAt 0 ≤ joinedAt then (false, isMatched, hasFoundMatch)
  else if !isMatched && !hasFoundMatch then (true, true, true)
  else (false, isMatched, hasFoundMatch)

/-- The `docChanges` dispatch of either match listener: `handleMatch`
runs only for an `added` change while `hasFoundMatch` is unset. -/
def processMatchChange (changeType : String) (joinedAt : Nat)
    (isMatched hasFoundMatch : Bool) (m : MatchDoc) : Bool × Bool × Bool :=
  if changeType = "added" && !hasFoundMatch then
    handleMatch joinedAt isMatched hasFoundMatch m
  else (false, isMatched, hasFoundMatch)

/-- `cleanupEverything`: the opportunistic global cleanup pass — delete
every queue entry whose `now - (lastHeartbeat || timestamp)` exceeds
30000 ms and every match with `createdAt < now - 60000`, whoever owns
them (the store's security rules, not this code, may deny individual
deletes; the model's store accepts them). -/
def cleanupEverything (s : Store) (now : Nat) : Store :=
  { queue := s.queue.filter (fun p => decide (¬ now - jsOr p.2.lastHeartbeat p.2.timestamp > 30000))
    matchDocs := s.matchDocs.filter (fun p => decide (¬ p.2.createdAt < now - 60000)) }

/-- `removeFromQueue`: best-effort delete of the tracked own entry; a
`null` id is a no-op. -/
def removeFromQueue (s : Store) (qid : Option String) : Store :=
  match qid with
  | none => s
  | some q => { s with queue := s.queue.filter (fun p => decide (p.1 ≠ q)) }

/-- The refreshed fields `upsertQueueEntry` writes onto the surviving
entry: fresh heartbeat and timestamp, status `searching`, new session
token. -/
def refreshEntry (d : QueueData) (uid : String) (now : Nat) : QueueData :=
  { d with lastHeartbeat := now, timestamp := now, status := "searching"
           sessionId := uid ++ "_" ++ toString now }

/-- The entry `upsertQueueEntry` creates when no `searching` entry
exists for the principal. -/
def newQueueEntry (u : AuthUser) (now : Nat) : QueueData :=
  { userId := u.uid, username := usernameOf u, rating := 1000
    timestamp := now, status := "searching", lastHeartbeat := now
    sessionId := u.uid ++ "_" ++ toString now }

/-- The `newestDocId`/`newestTimestamp` accumulator loop of
`upsertQueueEntry` (initial accumulator `(null, 0)`, strict `>`). -/
def pickNewestAux : Option String × Nat → List (String × QueueData) → Option String × Nat
  | acc, [] => acc
  | acc, p :: rest =>
    pickNewestAux (if p.2.timestamp > acc.2 then (some p.1, p.2.timestamp) else acc) rest

/-- The `upsertQueueEntry` query predicate:
`userId == user.uid && status == 'searching'`. -/
def mineSearching (uid : String) (p : String × QueueData) : Bool :=
  decide (p.2.userId = uid) && decide (p.2.status = "searching")

/-- The in-place update `upsertQueueEntry` applies to the surviving
entry (the `updateDoc` on `newestDocId`): other ids untouched. -/
def updFn (nid uid : String) (now : Nat) (p : String × QueueData) : String × QueueData :=
  if p.1 = nid then (p.1, refreshEntry p.2 uid now) else p

/-- The survivor predicate of `upsertQueueEntry`'s duplicate-deletion
loop: keep the refreshed entry and everything outside the snapshot. -/
def keepFn (nid : String) (snapIds : List String) (p : String × QueueData) : Bool :=
  decide (p.1 = nid) || decide (p.1 ∉ snapIds)

/-- `upsertQueueEntry`: query the principal's `searching` entries; if
none, create a fresh entry under the store-assigned id `newId`; else
refresh the entry with the newest timestamp in place and delete every
other entry of the snapshot.  When every snapshot timestamp is falsy the
source's `newestDocId` stays `null`: nothing is refreshed, the whole
snapshot is deleted, and the returned id is `null` (modelled `none`).
The error-fallback branch (`updateDoc` throwing) is not modelled: the
model's store operations do not fail. -/
def upsertQueueEntry (s : Store) (now : Nat) (u : AuthUser) (newId : String) :
    Store × Option String :=
  let snapshot := s.queue.filter (mineSearching u.uid)
  if snapshot.isEmpty then
    ({ s with queue := s.queue ++ [(newId, newQueueEntry u now)] }, some newId)
  else
    let snapIds := snapshot.map Prod.fst
    match (pickNewestAux (none, 0) snapshot).1 with
    | none =>
      ({ s with queue := s.queue.filter (fun p => decide (p.1 ∉ snapIds)) }, none)
    | some nid =>
      ({ s with queue := (s.queue.map (updFn nid u.uid now)).filter (keepFn nid snapIds) },
       some nid)

/-- Does a match document reference both principals (in either player
slot)? -/
def refBoth (x y : String) (m : MatchDoc) : Bool :=
  (decide (m.player1.userId = x) && decide (m.player2.userId = y)) ||
  (decide (m.player1.userId = y) && decide (m.player2.userId = x))

/-- How many match documents of the store reference both principals. -/
def countBoth (x y : String) (s : Store) : Nat :=
  (s.matchDocs.filter (fun p => refBoth x y p.2)).length

/-- One scheduled match-creation attempt of the two-client race: which
client runs (`who = true` is X), the wall-clock `Date.now()` it observes
and the store-assigned id its match document would get. -/
structure Attempt where
  who : Bool
  now : Nat
  mid : String
deriving DecidableEq

/-- The global state of the two-client race: the shared store plus each
client's local fields.  Between transactions a client touches only its
own local fields, and the transaction itself is a single serializable
store step, so scheduling whole `createMatchFromQueue` calls one at a
time captures every observable interleaving. -/
structure RaceState where
  store : Store
  stX : ClientState
  stY : ClientState
deriving DecidableEq

/-- Run one scheduled attempt: the chosen client executes
`createMatchFromQueue` against the current shared store, targeting its
cached snapshot of the other client's entry. -/
def raceStep (x y : AuthUser) (oppX oppY : QueuePlayer) (rs : RaceState)
    (a : Attempt) : RaceState :=
  if a.who then
    let r := createMatchFromQueue rs.stX rs.store a.now x oppX a.mid
    { store := r.2, stX := r.1, stY := rs.stY }
  else
    let r := createMatchFromQueue rs.stY rs.store a.now y oppY a.mid
    { store := r.2, stX := rs.stX, stY := r.1 }

/-- Run a whole schedule (an arbitrary interleaving of X's and Y's
attempts). -/
def raceRun (x y : AuthUser) (oppX oppY : QueuePlayer) (rs : RaceState)
    (as : List Attempt) : RaceState :=
  as.foldl (raceStep x y oppX oppY) rs

/-- The race invariant: each client's tracked id is its own entry or
already cleared, at most one match references the pair, and once one
does, at least one of the two queue entries is gone — which is exactly
what makes a second commit impossible. -/
def QInv (x y : AuthUser) (idX idY : String) (rs : RaceState) : Prop :=
  (rs.stX.currentQueueId = some idX ∨ rs.stX.currentQueueId = none) ∧
  (rs.stY.currentQueueId = some idY ∨ rs.stY.currentQueueId = none) ∧
  countBoth x.uid y.uid rs.store ≤ 1 ∧
  (1 ≤ countBoth x.uid y.uid rs.store →
    getQueueDoc rs.store idX = none ∨ getQueueDoc rs.store idY = none)

/-- The `docChanges` loop of `setupQueueListener`'s snapshot callback:
for each `added` change, skip while a creation is in flight, skip the
own entry and the own userId (the session principal: `joinQueue` passes
`user.uid` and the auth-change handler tears the listener down when the
authenticated uid diverges from it), validate, and attempt creation —
the source `break`s after the attempt, and releases the
`isCreatingMatch` latch on the invalid branch. -/
def listenerLoop (st : ClientState) (s : Store) (now : Nat) (u : AuthUser)
    (mid : String) : List (String × QueueData) → ClientState × Store
  | [] => (st, s)
  | (i, d) :: rest =>
    if st.isCreatingMatch then listenerLoop st s now u mid rest
    else if some i = st.currentQueueId then listenerLoop st s now u mid rest
    else if d.userId = u.uid then listenerLoop st s now u mid rest
    else
      if isValidOpponent s now u.uid st.currentQueueId (toQueuePlayer i d) then
        createMatchFromQueue { st with isCreatingMatch := true } s now u (toQueuePlayer i d) mid
      else
        listenerLoop { st with isCreatingMatch := false } s now u mid rest

/-- One delivery of the queue listener: the guard at the top of the
snapshot callback (`isMatched`, no tracked entry, creation in flight),
then the change loop over the delivered `added` changes. -/
def queueListenerSnapshot (st : ClientState) (s : Store) (now : Nat)
    (u : AuthUser) (mid : String) (changes : List (String × QueueData)) :
    ClientState × Store :=
  if st.isMatched = true ∨ st.currentQueueId = none ∨ st.isCreatingMatch = true then (st, s)
  else listenerLoop st s now u mid changes

/-! ## Concrete sample data (used by counterexamples and witnesses) -/

/-- A fresh `searching` entry of principal `x` under id `qx`. -/
def xEntry : QueueData :=
  { userId := "x", username := "x", rating := 1000, timestamp := 100
    status := "searching", lastHeartbeat := 100, sessionId := "x_100" }

/-- A fresh `searching` entry of principal `y` under id `qy`, whose
stored rating (1500) differs from the snapshot `x` cached earlier. -/
def yEntry : QueueData :=
  { userId := "y", username := "y", rating := 1500, timestamp := 101
    status := "searching", lastHeartbeat := 101, sessionId := "y_101" }

/-- A two-entry queue: `x`'s and `y`'s fresh entries. -/
def pairStore : Store := { queue := [("qx", xEntry), ("qy", yEntry)], matchDocs := [] }

/-- `x`'s cached discovery snapshot of `y`'s entry, carrying the stale
rating 1000. -/
def cachedOppY : QueuePlayer :=
  { id := "qy", userId := "y", username := "y", rating := 1000
    timestamp := 90, status := "searching" }

/-- `x`'s client state while searching with tracked entry `qx`. -/
def searchingX : ClientState :=
  { currentQueueId := some "qx", currentUserId := some "x", isMatched := false
    isCreatingMatch := false, isJoiningQueue := false, heartbeatOn := true
    matchListenerOn := true, queueListenerOn := true }

/-- An abandoned entry of principal `bob`: last heartbeat far in the
past. -/
def bobStale : QueueData :=
  { userId := "bob", username := "bob", rating := 1000, timestamp := 5
    status := "searching", lastHeartbeat := 5, sessionId := "bob_5" }

/-- `y`'s cached discovery snapshot of `x`'s entry. -/
def cachedOppX : QueuePlayer :=
  { id := "qx", userId := "x", username := "x", rating := 1000
    timestamp := 90, status := "searching" }

/-- `y`'s client state while searching with tracked entry `qy`. -/
def searchingY : ClientState :=
  { currentQueueId := some "qy", currentUserId := some "y", isMatched := false
    isCreatingMatch := false, isJoiningQueue := false, heartbeatOn := true
    matchListenerOn := true, queueListenerOn := true }

/-- The store after `x` commits the match transaction against
`pairStore` at time 200: `x`'s own entry is gone, `y`'s remains, and
the created match carries the cached rating 1000 and cached timestamp
90 for player2 — not the fresh entry's rating 1500. -/
def pairStoreAfterX : Store :=
  { queue := [("qy", yEntry)]
    matchDocs := [("m1",
      { player1 := { userId := "x", username := "Player", rating := 1000, timestamp := 200 }
        player2 := { userId := "y", username := "y", rating := 1000, timestamp := 90 }
        status := "ready", createdAt := 200 })] }

/-! ## Basic lemmas -/

theorem jsOr_zero (a : Nat) : jsOr a 0 = a := by
  unfold jsOr; split <;> omega

theorem jsOr_le_max (a b : Nat) : jsOr a (jsOr b 0) ≤ max a b := by
  unfold jsOr
  split
  · split
    · omega
    · exact le_max_right a b
  · exact le_max_left a b

/-- The age the source computes is at least the age computed from
`max lastHeartbeat timestamp`: the source's `lastHeartbeat || timestamp`
base is never above the max, so the source judges entries at least as
old as the spec's formula does. -/
theorem maxAge_le_ageOf (now : Nat) (d : QueueData) :
    now - max d.lastHeartbeat d.timestamp ≤ ageOf now d :=
  Nat.sub_le_sub_left (jsOr_le_max d.lastHeartbeat d.timestamp) now

/-- Inversion of a committed transaction: both documents were present,
`searching`, within the 10000 ms bound, and the new store is the old one
with exactly the match document added and exactly the initiator's entry
deleted. -/
theorem matchTxn_ok_inv {s : Store} {now : Nat} {u : AuthUser} {o : QueuePlayer}
    {qid mid : String} {s2 : Store}
    (h : matchTxn s now u o qid mid = Except.ok s2) :
    ∃ oppData curData,
      getQueueDoc s o.id = some oppData ∧ getQueueDoc s qid = some curData ∧
      oppData.status = "searching" ∧ curData.status = "searching" ∧
      ageOf now oppData ≤ 10000 ∧ ageOf now curData ≤ 10000 ∧
      s2 = { queue := s.queue.filter (fun p => decide (p.1 ≠ qid))
             matchDocs := (mid, mkMatchDoc u o oppData now) :: s.matchDocs } := by
  unfold matchTxn at h
  cases ho : getQueueDoc s o.id with
  | none => simp [ho] at h
  | some oppData =>
    simp only [ho] at h
    cases hc : getQueueDoc s qid with
    | none => simp [hc] at h
    | some curData =>
      simp only [hc] at h
      split at h
      next h1 => cases h
      next h1 =>
        split at h
        next h2 => cases h
        next h2 =>
          split at h
          next h3 => cases h
          next h3 =>
            cases h
            push_neg at h1 h2 h3
            exact ⟨oppData, curData, rfl, rfl, h1, h2, h3.1, h3.2, rfl⟩

/-- Reading the deleted id after the transaction's filter gives
nothing. -/
theorem getQueueDoc_filter_self (l : List (String × QueueData))
    (m : List (String × MatchDoc)) (qid : String) :
    getQueueDoc { queue := l.filter (fun p => decide (p.1 ≠ qid)), matchDocs := m } qid = none := by
  unfold getQueueDoc
  dsimp only
  have hnone : (l.filter (fun p => decide (p.1 ≠ qid))).find? (fun p => decide (p.1 = qid)) = none := by
    rw [List.find?_eq_none]
    intro p hp
    have := (List.mem_filter.1 hp).2
    simpa using this
  rw [hnone]
  rfl

/-- Reading any other id is unaffected by the transaction's filter. -/
theorem getQueueDoc_filter_other (l : List (String × QueueData))
    (m m2 : List (String × MatchDoc)) (qid i : String) (h : i ≠ qid) :
    getQueueDoc { queue := l.filter (fun p => decide (p.1 ≠ qid)), matchDocs := m } i =
    getQueueDoc { queue := l, matchDocs := m2 } i := by
  unfold getQueueDoc
  dsimp only
  rw [List.find?_filter]
  have hfun : (fun a : String × QueueData =>
      decide (decide (a.1 ≠ qid) = true ∧ decide (a.1 = i) = true)) =
      (fun p : String × QueueData => decide (p.1 = i)) := by
    funext a
    by_cases ha : a.1 = i
    · simp [ha, h]
    · simp [ha]
  rw [hfun]

/-- In a queue with no duplicate ids, two entries sharing an id are the
same entry. -/
theorem key_unique {α : Type} {l : List (String × α)}
    (h : (l.map Prod.fst).Nodup) {p q : String × α}
    (hp : p ∈ l) (hq : q ∈ l) (hk : p.1 = q.1) : p = q := by
  induction l with
  | nil => cases hp
  | cons a rest ih =>
    have hna : a.1 ∉ rest.map Prod.fst := (List.nodup_cons.1 h).1
    rcases List.mem_cons.1 hp with rfl | hp'
    · rcases List.mem_cons.1 hq with rfl | hq'
      · rfl
      · exact absurd (hk ▸ List.mem_map_of_mem Prod.fst hq') hna
    · rcases List.mem_cons.1 hq with rfl | hq'
      · exact absurd (hk ▸ List.mem_map_of_mem Prod.fst hp') hna
      · exact ih (List.nodup_cons.1 h).2 hp' hq'

/-- The `newestDocId` loop either returns its accumulator or some
element's id with that element's timestamp. -/
theorem pickNewestAux_mem :
    ∀ (l : List (String × QueueData)) (acc : Option String × Nat),
      pickNewestAux acc l = acc ∨
      ∃ q ∈ l, pickNewestAux acc l = (some q.1, q.2.timestamp) := by
  intro l
  induction l with
  | nil => intro acc; exact Or.inl rfl
  | cons p rest ih =>
    intro acc
    unfold pickNewestAux
    by_cases hp : p.2.timestamp > acc.2
    · rw [if_pos hp]
      rcases ih (some p.1, p.2.timestamp) with h | ⟨q, hq, h⟩
      · exact Or.inr ⟨p, List.mem_cons_self p rest, h⟩
      · exact Or.inr ⟨q, List.mem_cons_of_mem p hq, h⟩
    · rw [if_neg hp]
      rcases ih acc with h | ⟨q, hq, h⟩
      · exact Or.inl h
      · exact Or.inr ⟨q, List.mem_cons_of_mem p hq, h⟩

/-- The `newestDocId` loop's running timestamp dominates the
accumulator and every element seen. -/
theorem pickNewestAux_ge :
    ∀ (l : List (String × QueueData)) (acc : Option String × Nat),
      acc.2 ≤ (pickNewestAux acc l).2 ∧
      ∀ q ∈ l, q.2.timestamp ≤ (pickNewestAux acc l).2 := by
  intro l
  induction l with
  | nil => intro acc; exact ⟨le_rfl, fun q hq => absurd hq (List.not_mem_nil q)⟩
  | cons p rest ih =>
    intro acc
    unfold pickNewestAux
    by_cases hp : p.2.timestamp > acc.2
    · rw [if_pos hp]
      obtain ⟨h1, h2⟩ := ih (some p.1, p.2.timestamp)
      refine ⟨le_trans (le_of_lt hp) h1, fun q hq => ?_⟩
      rcases List.mem_cons.1 hq with rfl | hq'
      · exact h1
      · exact h2 q hq'
    · rw [if_neg hp]
      obtain ⟨h1, h2⟩ := ih acc
      refine ⟨h1, fun q hq => ?_⟩
      rcases List.mem_cons.1 hq with rfl | hq'
      · exact le_trans (le_of_not_lt hp) h1
      · exact h2 q hq'

/-- `createMatchFromQueue` either leaves the store untouched (and the
tracked id unchanged), or it committed: both documents were readable,
the match document was prepended and exactly the initiator's own entry
was filtered out, after which the tracked id is cleared. -/
theorem createMatch_cases (st : ClientState) (s : Store) (now : Nat)
    (u : AuthUser) (o : QueuePlayer) (mid : String) :
    ((createMatchFromQueue st s now u o mid).2 = s ∧
     (createMatchFromQueue st s now u o mid).1.currentQueueId = st.currentQueueId) ∨
    (∃ qid oppData, st.currentQueueId = some qid ∧
      getQueueDoc s o.id = some oppData ∧ (getQueueDoc s qid).isSome ∧
      (createMatchFromQueue st s now u o mid).2.matchDocs =
        (mid, mkMatchDoc u o oppData now) :: s.matchDocs ∧
      (createMatchFromQueue st s now u o mid).2.queue =
        s.queue.filter (fun p => decide (p.1 ≠ qid)) ∧
      (createMatchFromQueue st s now u o mid).1.currentQueueId = none) := by
  by_cases hm : st.isMatched = true
  · left
    constructor <;> simp [createMatchFromQueue, hm]
  · cases hq : st.currentQueueId with
    | none =>
      left
      constructor <;> simp [createMatchFromQueue, hm, hq]
    | some qid =>
      cases ht : matchTxn s now u o qid mid with
      | error e =>
        left
        constructor <;> simp [createMatchFromQueue, hm, hq, ht]
      | ok s2 =>
        obtain ⟨od, cd, ho, hc, _, _, _, _, hs2⟩ := matchTxn_ok_inv ht
        refine Or.inr ⟨qid, od, rfl, ho, ?_, ?_, ?_, ?_⟩
        · rw [hc]; rfl
        · simp [createMatchFromQueue, hm, hq, ht, hs2]
        · simp [createMatchFromQueue, hm, hq, ht, hs2]
        · simp [createMatchFromQueue, cleanup, hm, hq, ht]

/-- Any match the attempt adds pairs the acting principal (`player1`)
with a candidate whose userId differs from the principal's. -/
theorem createMatch_new_matches (st : ClientState) (s : Store) (now : Nat)
    (u : AuthUser) (o : QueuePlayer) (mid : String) (hne : o.userId ≠ u.uid) :
    ∀ q ∈ (createMatchFromQueue st s now u o mid).2.matchDocs,
      q ∈ s.matchDocs ∨ (q.2.player1.userId = u.uid ∧ q.2.player2.userId ≠ u.uid) := by
  rcases createMatch_cases st s now u o mid with ⟨h, _⟩ | ⟨qid, od, _, _, _, hmD, _, _⟩
  · rw [h]; exact fun q hq => Or.inl hq
  · rw [hmD]
    intro q hq
    rcases List.mem_cons.1 hq with rfl | hq'
    · exact Or.inr ⟨rfl, hne⟩
    · exact Or.inl hq'

/-- Any match the scan loop adds pairs the principal with a
different-userId candidate. -/
theorem scanLoop_matchDocs (s : Store) (now : Nat) (u : AuthUser) (mid : String) :
    ∀ (docs : List (String × QueueData)) (st : ClientState),
      ∀ q ∈ (scanLoop st s now u mid docs).2.matchDocs,
        q ∈ s.matchDocs ∨ (q.2.player1.userId = u.uid ∧ q.2.player2.userId ≠ u.uid) := by
  intro docs
  induction docs with
  | nil => intro st q hq; exact Or.inl hq
  | cons pd rest ih =>
    intro st q hq
    obtain ⟨i, d⟩ := pd
    unfold scanLoop at hq
    split at hq
    · exact Or.inl hq
    · split at hq
      · exact ih st q hq
      · split at hq
        next hown => exact ih st q hq
        next hown =>
          split at hq
          next hval => exact createMatch_new_matches _ s now u _ mid hown _ hq
          next hval => exact ih _ q hq

/-- Any match the listener change-loop adds pairs the principal with a
different-userId candidate. -/
theorem listenerLoop_matchDocs (s : Store) (now : Nat) (u : AuthUser) (mid : String) :
    ∀ (changes : List (String × QueueData)) (st : ClientState),
      ∀ q ∈ (listenerLoop st s now u mid changes).2.matchDocs,
        q ∈ s.matchDocs ∨ (q.2.player1.userId = u.uid ∧ q.2.player2.userId ≠ u.uid) := by
  intro changes
  induction changes with
  | nil => intro st q hq; exact Or.inl hq
  | cons pd rest ih =>
    intro st q hq
    obtain ⟨i, d⟩ := pd
    unfold listenerLoop at hq
    split at hq
    · exact ih st q hq
    · split at hq
      · exact ih st q hq
      · split at hq
        next hown => exact ih st q hq
        next hown =>
          split at hq
          next hval => exact createMatch_new_matches _ s now u _ mid hown _ hq
          next hval => exact ih _ q hq

/-- The scan loop deletes at most the entry tracked by
`currentQueueId`: every other queue document survives. -/
theorem scanLoop_queue (s : Store) (now : Nat) (u : AuthUser) (mid : String) :
    ∀ (docs : List (String × QueueData)) (st : ClientState) (p : String × QueueData),
      p ∈ s.queue → some p.1 ≠ st.currentQueueId →
      p ∈ (scanLoop st s now u mid docs).2.queue := by
  intro docs
  induction docs with
  | nil => intro st p hp _; exact hp
  | cons pd rest ih =>
    intro st p hp hne
    obtain ⟨i, d⟩ := pd
    unfold scanLoop
    split
    · exact hp
    · split
      · exact ih st p hp hne
      · split
        · exact ih st p hp hne
        · split
          · rcases createMatch_cases { st with isCreatingMatch := true } s now u _ mid with
              ⟨h, _⟩ | ⟨qid, od, hq, _, _, _, hQ, _⟩
            · rw [h]; exact hp
            · rw [hQ]
              refine List.mem_filter.2 ⟨hp, ?_⟩
              have : st.currentQueueId = some qid := hq
              simp only [decide_eq_true_eq]
              intro hpq
              exact hne (by rw [hpq, this])
          · exact ih _ p hp hne

/-- With unique ids, filtering a queue for one present id yields exactly
that entry. -/
theorem filter_key_unique {α : Type} {l : List (String × α)}
    (hnd : (l.map Prod.fst).Nodup) {nid : String} {d : α} (hmem : (nid, d) ∈ l) :
    l.filter (fun p => decide (p.1 = nid)) = [(nid, d)] := by
  induction l with
  | nil => cases hmem
  | cons a rest ih =>
    have hna : a.1 ∉ rest.map Prod.fst := (List.nodup_cons.1 hnd).1
    rcases List.mem_cons.1 hmem with rfl | hmem'
    · rw [List.filter_cons_of_pos (by simp)]
      congr 1
      rw [List.filter_eq_nil_iff]
      intro p hp
      simp only [decide_eq_true_eq]
      intro hpk
      have h1 : p.1 ∈ rest.map Prod.fst := List.mem_map_of_mem Prod.fst hp
      rw [hpk] at h1
      exact hna h1
    · have hank : ¬ a.1 = nid := by
        intro hh
        exact hna (hh ▸ List.mem_map_of_mem Prod.fst hmem')
      rw [List.filter_cons_of_neg (by simpa using hank)]
      exact ih (List.nodup_cons.1 hnd).2 hmem'

theorem refBoth_comm (x y : String) (m : MatchDoc) : refBoth x y m = refBoth y x m := by
  unfold refBoth
  rw [Bool.or_comm]

theorem countBoth_comm (x y : String) (s : Store) : countBoth x y s = countBoth y x s := by
  unfold countBoth
  congr 1
  apply List.filter_congr
  intro a _
  rw [refBoth_comm]

/-- Prepending one match document to the store bumps the pair count by
one exactly when the new match references the pair. -/
theorem countBoth_matchDocs_cons (x y : String) (s2 s : Store) (mid : String) (m : MatchDoc)
    (h : s2.matchDocs = (mid, m) :: s.matchDocs) :
    countBoth x y s2 = (if refBoth x y m then 1 else 0) + countBoth x y s := by
  unfold countBoth
  rw [h, List.filter_cons]
  by_cases hr : refBoth x y m = true
  · simp [hr]
    omega
  · simp [hr]

/-- One match-creation attempt by one racing client preserves the pair
invariant: the tracked id stays or clears, the pair count stays at most
one, a positive count still implies a missing entry, and the count never
decreases.  `own` is the attempting client's entry id, `oth` the
other's; the attempt targets the cached snapshot `o` of the other's
entry. -/
theorem attempt_step_inv (u uo : AuthUser) (o : QueuePlayer) (own oth : String)
    (st : ClientState) (s : Store) (now : Nat) (mid : String)
    (hoid : o.id = oth) (houid : o.userId = uo.uid)
    (hcq : st.currentQueueId = some own ∨ st.currentQueueId = none)
    (hle : countBoth u.uid uo.uid s ≤ 1)
    (hmiss : 1 ≤ countBoth u.uid uo.uid s →
      getQueueDoc s own = none ∨ getQueueDoc s oth = none) :
    ((createMatchFromQueue st s now u o mid).1.currentQueueId = some own ∨
      (createMatchFromQueue st s now u o mid).1.currentQueueId = none) ∧
    countBoth u.uid uo.uid (createMatchFromQueue st s now u o mid).2 ≤ 1 ∧
    (1 ≤ countBoth u.uid uo.uid (createMatchFromQueue st s now u o mid).2 →
      getQueueDoc (createMatchFromQueue st s now u o mid).2 own = none ∨
      getQueueDoc (createMatchFromQueue st s now u o mid).2 oth = none) ∧
    countBoth u.uid uo.uid s ≤ countBoth u.uid uo.uid (createMatchFromQueue st s now u o mid).2 := by
  rcases createMatch_cases st s now u o mid with ⟨h2, h1⟩ | ⟨qid, od, hq, ho, hcur, hmD, hQ, h1⟩
  · refine ⟨?_, ?_, ?_, ?_⟩
    · rw [h1]; exact hcq
    · rw [h2]; exact hle
    · rw [h2]; exact hmiss
    · rw [h2]
  · have hqid : qid = own := by
      rcases hcq with hcq2 | hcq2
      · rw [hq] at hcq2; exact Option.some.inj hcq2
      · rw [hq] at hcq2; cases hcq2
    subst hqid
    have hc0 : countBoth u.uid uo.uid s = 0 := by
      by_contra hne
      have h1le : 1 ≤ countBoth u.uid uo.uid s := Nat.one_le_iff_ne_zero.2 hne
      rcases hmiss h1le with hm | hm
      · rw [hm] at hcur
        simp at hcur
      · rw [hoid, hm] at ho
        cases ho
    have hrefl : refBoth u.uid uo.uid (mkMatchDoc u o od now) = true := by
      unfold refBoth mkMatchDoc
      simp [houid]
    have hcount : countBoth u.uid uo.uid (createMatchFromQueue st s now u o mid).2 = 1 := by
      rw [countBoth_matchDocs_cons u.uid uo.uid _ s mid _ hmD, hrefl, hc0]
      simp
    refine ⟨Or.inr h1, by rw [hcount], ?_, by rw [hcount, hc0]; omega⟩
    intro _
    left
    have h3 : getQueueDoc (createMatchFromQueue st s now u o mid).2 qid =
        getQueueDoc
          { queue := s.queue.filter (fun p => decide (p.1 ≠ qid))
            matchDocs := (createMatchFromQueue st s now u o mid).2.matchDocs } qid := by
      rw [← hQ]
    rw [h3]
    exact getQueueDoc_filter_self s.queue _ qid

/-- The pair invariant is preserved by any schedule of race attempts,
and the pair count never decreases along the run. -/
theorem raceRun_inv (x y : AuthUser) (oppX oppY : QueuePlayer) (idX idY : String)
    (hx1 : oppX.id = idY) (hx2 : oppX.userId = y.uid)
    (hy1 : oppY.id = idX) (hy2 : oppY.userId = x.uid) :
    ∀ (as : List Attempt) (rs : RaceState), QInv x y idX idY rs →
      QInv x y idX idY (raceRun x y oppX oppY rs as) ∧
      countBoth x.uid y.uid rs.store ≤
        countBoth x.uid y.uid (raceRun x y oppX oppY rs as).store := by
  intro as
  induction as with
  | nil => intro rs h; exact ⟨h, le_rfl⟩
  | cons a rest ih =>
    intro rs h
    obtain ⟨hX, hY, hle, hmiss⟩ := h
    have hstep : QInv x y idX idY (raceStep x y oppX oppY rs a) ∧
        countBoth x.uid y.uid rs.store ≤
          countBoth x.uid y.uid (raceStep x y oppX oppY rs a).store := by
      by_cases hwho : a.who = true
      · have hred : raceStep x y oppX oppY rs a =
            ⟨(createMatchFromQueue rs.stX rs.store a.now x oppX a.mid).2,
             (createMatchFromQueue rs.stX rs.store a.now x oppX a.mid).1, rs.stY⟩ := by
          unfold raceStep
          rw [if_pos hwho]
        obtain ⟨c1, c2, c3, c4⟩ :=
          attempt_step_inv x y oppX idX idY rs.stX rs.store a.now a.mid hx1 hx2 hX hle hmiss
        rw [hred]
        exact ⟨⟨c1, hY, c2, c3⟩, c4⟩
      · have hred : raceStep x y oppX oppY rs a =
            ⟨(createMatchFromQueue rs.stY rs.store a.now y oppY a.mid).2, rs.stX,
             (createMatchFromQueue rs.stY rs.store a.now y oppY a.mid).1⟩ := by
          unfold raceStep
          rw [if_neg hwho]
        obtain ⟨c1, c2, c3, c4⟩ :=
          attempt_step_inv y x oppY idY idX rs.stY rs.store a.now a.mid hy1 hy2 hY
            (by rw [← countBoth_comm]; exact hle)
            (by rw [← countBoth_comm]; intro hh; exact (hmiss hh).symm)
        rw [hred]
        refine ⟨⟨hX, c1, ?_, ?_⟩, ?_⟩
        · rw [countBoth_comm]; exact c2
        · rw [countBoth_comm]; intro hh; exact (c3 hh).symm
        · calc countBoth x.uid y.uid rs.store
              = countBoth y.uid x.uid rs.store := countBoth_comm _ _ _
            _ ≤ countBoth y.uid x.uid
                  (createMatchFromQueue rs.stY rs.store a.now y oppY a.mid).2 := c4
            _ = countBoth x.uid y.uid
                  (createMatchFromQueue rs.stY rs.store a.now y oppY a.mid).2 :=
                (countBoth_comm _ _ _).symm
    have hrec := ih (raceStep x y oppX oppY rs a) hstep.1
    exact ⟨hrec.1, le_trans hstep.2 hrec.2⟩

/-- When both fresh documents read inside the transaction are
`searching` and within the 10000 ms bound, the transaction commits with
exactly the match creation and the own-entry deletion. -/
theorem matchTxn_commits (s : Store) (now : Nat) (u : AuthUser) (o : QueuePlayer)
    (qid mid : String) (dOth dOwn : QueueData)
    (hOth : getQueueDoc s o.id = some dOth) (hOwn : getQueueDoc s qid = some dOwn)
    (h1 : dOth.status = "searching") (h2 : dOwn.status = "searching")
    (h3 : ageOf now dOth ≤ 10000) (h4 : ageOf now dOwn ≤ 10000) :
    matchTxn s now u o qid mid = Except.ok
      { queue := s.queue.filter (fun p => decide (p.1 ≠ qid))
        matchDocs := (mid, mkMatchDoc u o dOth now) :: s.matchDocs } := by
  unfold matchTxn
  simp only [hOth, hOwn]
  rw [if_neg (by simp [h1]), if_neg (by simp [h2]), if_neg (by omega)]

/-- Composing: an attempting client with fresh state and two fresh
`searching` documents commits, leaving the described store. -/
theorem createMatch_commits (st : ClientState) (s : Store) (now : Nat) (u : AuthUser)
    (o : QueuePlayer) (qid mid : String) (dOth dOwn : QueueData)
    (hm : st.isMatched = false) (hq : st.currentQueueId = some qid)
    (hOth : getQueueDoc s o.id = some dOth) (hOwn : getQueueDoc s qid = some dOwn)
    (h1 : dOth.status = "searching") (h2 : dOwn.status = "searching")
    (h3 : ageOf now dOth ≤ 10000) (h4 : ageOf now dOwn ≤ 10000) :
    (createMatchFromQueue st s now u o mid).2 =
      { queue := s.queue.filter (fun p => decide (p.1 ≠ qid))
        matchDocs := (mid, mkMatchDoc u o dOth now) :: s.matchDocs } ∧
    (createMatchFromQueue st s now u o mid).1.currentQueueId = none := by
  have htx := matchTxn_commits s now u o qid mid dOth dOwn hOth hOwn h1 h2 h3 h4
  constructor
  · simp [createMatchFromQueue, hm, hq, htx]
  · simp [createMatchFromQueue, cleanup, hm, hq, htx]

/-! ## Claim theorems -/

/-- C10: `cleanup` stops the heartbeat timer, unsubscribes and nulls
both listeners, clears `currentQueueId` and `currentUserId`, resets
`isJoiningQueue` and `isCreatingMatch`, and leaves `isMatched`
unchanged. -/
theorem C10_cleanup_frame (st : ClientState) :
    (cleanup st).heartbeatOn = false ∧
    (cleanup st).matchListenerOn = false ∧
    (cleanup st).queueListenerOn = false ∧
    (cleanup st).currentQueueId = none ∧
    (cleanup st).currentUserId = none ∧
    (cleanup st).isJoiningQueue = false ∧
    (cleanup st).isCreatingMatch = false ∧
    (cleanup st).isMatched = st.isMatched :=
  ⟨rfl, rfl, rfl, rfl, rfl, rfl, rfl, rfl⟩

/-- C5: an `added` match event whose `createdAt` (a missing field
counting as `0`) is at most the session's `joinedAt` never invokes the
`onMatchFound` callback: the dispatched handler returns with the
invoked flag `false`. -/
theorem C5_session_isolation (changeType : String) (joinedAt : Nat)
    (isMatched hasFoundMatch : Bool) (m : MatchDoc)
    (h : m.createdAt ≤ joinedAt) :
    (processMatchChange changeType joinedAt isMatched hasFoundMatch m).1 = false := by
  unfold processMatchChange
  split
  · unfold handleMatch
    rw [jsOr_zero, if_pos h]
  · rfl

theorem C5_session_isolation_witness :
    (processMatchChange "added" 500 false false
      { player1 := { userId := "a", username := "a", rating := 1, timestamp := 1 }
        player2 := { userId := "b", username := "b", rating := 1, timestamp := 1 }
        status := "ready", createdAt := 400 }).1 = false :=
  C5_session_isolation "added" 500 false false _ (by decide)

/-- C4: discovery validation returns `false` for every candidate whose
fresh re-read has age above 30000 ms when the age is computed as
`now - max lastHeartbeat timestamp`; the source's
`now - (lastHeartbeat || timestamp || 0)` is at least that, so every
entry stale by the spec's formula is rejected. -/
theorem C4_stale_discovery_rejected (s : Store) (now : Nat) (currentUserId : String)
    (currentQueueId : Option String) (o : QueuePlayer) (d : QueueData)
    (hd : getQueueDoc s o.id = some d)
    (hage : now - max d.lastHeartbeat d.timestamp > 30000) :
    isValidOpponent s now currentUserId currentQueueId o = false := by
  unfold isValidOpponent
  split
  · rfl
  · simp only [hd]
    rw [if_pos (lt_of_lt_of_le hage (maxAge_le_ageOf now d))]

theorem C4_stale_discovery_witness :
    isValidOpponent
      { queue := [("q1", { userId := "bob", username := "bob", rating := 1000
                           timestamp := 2, status := "searching", lastHeartbeat := 1
                           sessionId := "bob_2" })]
        matchDocs := [] }
      40000 "alice" none
      { id := "q1", userId := "bob", username := "bob", rating := 1000
        timestamp := 2, status := "searching" } = false :=
  C4_stale_discovery_rejected _ 40000 "alice" none
    { id := "q1", userId := "bob", username := "bob", rating := 1000
      timestamp := 2, status := "searching" }
    { userId := "bob", username := "bob", rating := 1000
      timestamp := 2, status := "searching", lastHeartbeat := 1
      sessionId := "bob_2" } (by decide) (by decide)

/-- C2: whenever either queue document is missing, either status is not
`searching`, or either age exceeds 10000 ms, the match-creation
transaction throws and the store is left unchanged: no match document is
created and no queue entry is deleted. -/
theorem C2_txn_abort_no_side_effects (st : ClientState) (s : Store) (now : Nat)
    (u : AuthUser) (o : QueuePlayer) (qid mid : String)
    (hq : st.currentQueueId = some qid)
    (h : getQueueDoc s o.id = none ∨ getQueueDoc s qid = none ∨
      (∃ d, getQueueDoc s o.id = some d ∧ d.status ≠ "searching") ∨
      (∃ d, getQueueDoc s qid = some d ∧ d.status ≠ "searching") ∨
      (∃ d, getQueueDoc s o.id = some d ∧ ageOf now d > 10000) ∨
      (∃ d, getQueueDoc s qid = some d ∧ ageOf now d > 10000)) :
    (∃ e, matchTxn s now u o qid mid = Except.error e) ∧
    (createMatchFromQueue st s now u o mid).2 = s := by
  have hok : ∀ s2, matchTxn s now u o qid mid = Except.ok s2 → False := by
    intro s2 hs2
    obtain ⟨od, cd, ho, hc, hos, hcs, hoa, hca, _⟩ := matchTxn_ok_inv hs2
    rcases h with h | h | ⟨d, hd, hds⟩ | ⟨d, hd, hds⟩ | ⟨d, hd, hda⟩ | ⟨d, hd, hda⟩
    · rw [h] at ho; cases ho
    · rw [h] at hc; cases hc
    · rw [hd] at ho; cases ho; exact hds hos
    · rw [hd] at hc; cases hc; exact hds hcs
    · rw [hd] at ho; cases ho; omega
    · rw [hd] at hc; cases hc; omega
  have herr : ∃ e, matchTxn s now u o qid mid = Except.error e := by
    cases hm : matchTxn s now u o qid mid with
    | ok s2 => exact (hok s2 hm).elim
    | error e => exact ⟨e, rfl⟩
  refine ⟨herr, ?_⟩
  obtain ⟨e, he⟩ := herr
  unfold createMatchFromQueue
  split
  · rfl
  · rw [hq]
    simp only [he]

theorem C2_txn_abort_witness :
    (∃ e, matchTxn { queue := [], matchDocs := [] } 0 { uid := "x", email := none }
        { id := "qy", userId := "y", username := "y", rating := 1000
          timestamp := 0, status := "searching" } "qx" "m1" = Except.error e) ∧
    (createMatchFromQueue
      { currentQueueId := some "qx", currentUserId := some "x", isMatched := false
        isCreatingMatch := false, isJoiningQueue := false, heartbeatOn := true
        matchListenerOn := true, queueListenerOn := true }
      { queue := [], matchDocs := [] } 0 { uid := "x", email := none }
      { id := "qy", userId := "y", username := "y", rating := 1000
        timestamp := 0, status := "searching" } "m1").2 = { queue := [], matchDocs := [] } :=
  C2_txn_abort_no_side_effects _ _ 0 _ _ "qx" "m1" rfl (Or.inl (by decide))

/-- C8: when the transaction is actually attempted (`isMatched` was
`false` and a `currentQueueId` is tracked) and it fails, the catch block
absorbs the error (the embedding is a total function: it returns rather
than rethrowing), resets `isMatched` and `isCreatingMatch` to `false`,
and leaves the store untouched, so the client resumes searching. -/
theorem C8_txn_failure_recovery (st : ClientState) (s : Store) (now : Nat)
    (u : AuthUser) (o : QueuePlayer) (qid mid : String) (e : String)
    (hm : st.isMatched = false) (hq : st.currentQueueId = some qid)
    (he : matchTxn s now u o qid mid = Except.error e) :
    (createMatchFromQueue st s now u o mid).1.isMatched = false ∧
    (createMatchFromQueue st s now u o mid).1.isCreatingMatch = false ∧
    (createMatchFromQueue st s now u o mid).2 = s := by
  unfold createMatchFromQueue
  rw [hq]
  simp only [hm, he]
  exact ⟨rfl, rfl, rfl⟩

/-- C9 counterexample: the claim says player2's rating is taken from
the fresh candidate snapshot read inside the transaction, but the source
writes `rating: opponent.rating` — the caller's cached copy.  With the
fresh document holding rating 1500 and the cached snapshot holding 1000,
the committed match's player2 rating is 1000, not 1500. -/
theorem C9_rating_counterexample :
    yEntry.rating = 1500 ∧ cachedOppY.rating = 1000 ∧
    ((matchTxn pairStore 200 { uid := "x", email := none } cachedOppY "qx" "m1").toOption.map
      (fun s2 => s2.matchDocs.map (fun q => q.2.player2.rating))) = some [1000] ∧
    (1000 : Nat) ≠ 1500 := by decide

/-- C9 (amended): on a committed transaction the written match has
`player1` as the initiator's info, `player2` with the username from the
fresh in-transaction snapshot (cached fallback when it is empty) but the
rating and timestamp from the caller's cached candidate, status `ready`
and `createdAt = now`; the initiator's own entry is deleted in the same
atomic unit and the candidate's entry is left in place. -/
theorem C9_match_contents_amended (st : ClientState) (s : Store) (now : Nat)
    (u : AuthUser) (o : QueuePlayer) (qid mid : String) (oppData : QueueData) (s2 : Store)
    (hm : st.isMatched = false) (hq : st.currentQueueId = some qid) (hne : o.id ≠ qid)
    (hod : getQueueDoc s o.id = some oppData)
    (hok : matchTxn s now u o qid mid = Except.ok s2) :
    (createMatchFromQueue st s now u o mid).2 = s2 ∧
    s2.matchDocs =
      (mid,
        { player1 := { userId := u.uid, username := usernameOf u, rating := 1000, timestamp := now }
          player2 := { userId := o.userId, username := jsOrS oppData.username o.username
                       rating := o.rating, timestamp := o.timestamp }
          status := "ready", createdAt := now }) :: s.matchDocs ∧
    getQueueDoc s2 qid = none ∧
    getQueueDoc s2 o.id = some oppData := by
  obtain ⟨od, cd, hod2, hcd, _, _, _, _, hs2⟩ := matchTxn_ok_inv hok
  rw [hod] at hod2
  cases hod2
  refine ⟨?_, ?_, ?_, ?_⟩
  · simp [createMatchFromQueue, hm, hq, hok]
  · rw [hs2]
    rfl
  · rw [hs2]
    exact getQueueDoc_filter_self s.queue _ qid
  · rw [hs2]
    rw [getQueueDoc_filter_other s.queue _ s.matchDocs qid o.id hne]
    exact hod

theorem C9_match_contents_witness :
    (createMatchFromQueue searchingX pairStore 200 { uid := "x", email := none }
        cachedOppY "m1").2 = pairStoreAfterX ∧
    pairStoreAfterX.matchDocs =
      ("m1",
        { player1 := { userId := "x", username := usernameOf { uid := "x", email := none }
                       rating := 1000, timestamp := 200 }
          player2 := { userId := "y", username := jsOrS yEntry.username cachedOppY.username
                       rating := cachedOppY.rating, timestamp := cachedOppY.timestamp }
          status := "ready", createdAt := 200 }) :: pairStore.matchDocs ∧
    getQueueDoc pairStoreAfterX "qx" = none ∧
    getQueueDoc pairStoreAfterX cachedOppY.id = some yEntry :=
  C9_match_contents_amended searchingX pairStore 200 { uid := "x", email := none }
    cachedOppY "qx" "m1" yEntry pairStoreAfterX rfl rfl (by decide) (by decide) rfl

/-- C6 counterexample: `cleanupEverything` is a code path (run by any
client inside `joinQueue`, with no regard to the acting principal) that
deletes a stale queue entry owned by a different user — here `bob`'s
entry, while the acting principal is any other user such as `alice`. -/
theorem C6_ownership_counterexample :
    bobStale.userId = "bob" ∧ ("bob" : String) ≠ "alice" ∧
    (cleanupEverything { queue := [("q1", bobStale)], matchDocs := [] } 100000).queue = [] := by
  decide

/-- C6 (amended): outside the global stale-cleanup pass, every deletion
targets the acting client's own tracked documents — `removeFromQueue`
deletes only the tracked entry and never a match, `upsertQueueEntry`
never deletes an entry of a different userId, and the discovery/creation
path deletes only the entry tracked by `currentQueueId` (the initiator's
own entry, inside the transaction); `cleanupEverything` additionally
deletes, regardless of owner, exactly the queue entries older than
30000 ms and the matches older than 60000 ms — everything fresher
survives it. -/
theorem C6_ownership_amended :
    (∀ (s : Store) (now : Nat) (p : String × QueueData), p ∈ s.queue →
      now - jsOr p.2.lastHeartbeat p.2.timestamp ≤ 30000 →
      p ∈ (cleanupEverything s now).queue) ∧
    (∀ (s : Store) (now : Nat) (q : String × MatchDoc), q ∈ s.matchDocs →
      now - 60000 ≤ q.2.createdAt → q ∈ (cleanupEverything s now).matchDocs) ∧
    (∀ (s : Store) (qid : Option String) (p : String × QueueData), p ∈ s.queue →
      some p.1 ≠ qid → p ∈ (removeFromQueue s qid).queue) ∧
    (∀ (s : Store) (qid : Option String), (removeFromQueue s qid).matchDocs = s.matchDocs) ∧
    (∀ (s : Store) (now : Nat) (u : AuthUser) (newId : String) (p : String × QueueData),
      (s.queue.map Prod.fst).Nodup → p ∈ s.queue → p.2.userId ≠ u.uid →
      p ∈ (upsertQueueEntry s now u newId).1.queue) ∧
    (∀ (st : ClientState) (s : Store) (now : Nat) (u : AuthUser) (mid : String)
      (p : String × QueueData), p ∈ s.queue → some p.1 ≠ st.currentQueueId →
      p ∈ (scanQueueForOpponents st s now u mid).2.queue) := by
  refine ⟨?_, ?_, ?_, ?_, ?_, ?_⟩
  · intro s now p hp hfresh
    refine List.mem_filter.2 ⟨hp, ?_⟩
    simp only [decide_eq_true_eq]
    omega
  · intro s now q hq hfresh
    refine List.mem_filter.2 ⟨hq, ?_⟩
    simp only [decide_eq_true_eq]
    omega
  · intro s qid p hp hne
    cases qid with
    | none => exact hp
    | some q =>
      refine List.mem_filter.2 ⟨hp, ?_⟩
      simp only [decide_eq_true_eq]
      intro hpq
      exact hne (by rw [hpq])
  · intro s qid
    cases qid <;> rfl
  · intro s now u newId p hnd hp hne
    unfold upsertQueueEntry
    set snapshot := s.queue.filter (mineSearching u.uid) with hsnap
    have hnotsnap : p.1 ∉ snapshot.map Prod.fst := by
      intro hmem
      obtain ⟨q, hq, hq1⟩ := List.mem_map.1 hmem
      have hqs := List.mem_filter.1 hq
      have : p = q := key_unique hnd hp hqs.1 hq1.symm
      have := hqs.2
      unfold mineSearching at this
      rw [← ‹p = q›] at this
      simp only [Bool.and_eq_true, decide_eq_true_eq] at this
      exact hne this.1
    by_cases hempty : snapshot.isEmpty
    · rw [if_pos hempty]
      exact List.mem_append.2 (Or.inl hp)
    · rw [if_neg hempty]
      cases hpick : (pickNewestAux (none, 0) snapshot).1 with
      | none =>
        refine List.mem_filter.2 ⟨hp, ?_⟩
        simpa using hnotsnap
      | some nid =>
        have hnidmem : nid ∈ snapshot.map Prod.fst := by
          rcases pickNewestAux_mem snapshot (none, 0) with hacc | ⟨q, hq, hres⟩
          · rw [hacc] at hpick; cases hpick
          · rw [hres] at hpick
            cases hpick
            exact List.mem_map_of_mem Prod.fst hq
        have hpne : ¬ p.1 = nid := fun hh => hnotsnap (hh ▸ hnidmem)
        refine List.mem_filter.2 ⟨?_, ?_⟩
        · refine List.mem_map.2 ⟨p, hp, ?_⟩
          unfold updFn
          rw [if_neg hpne]
        · simp only [keepFn, Bool.or_eq_true, decide_eq_true_eq]
          right
          simpa using hnotsnap
  · intro st s now u mid p hp hne
    unfold scanQueueForOpponents
    split
    · exact hp
    · exact scanLoop_queue s now u mid _ st p hp hne

theorem C6_ownership_witness :
    (("qx", xEntry) ∈ (cleanupEverything { queue := [("qx", xEntry)], matchDocs := [] } 200).queue) ∧
    (("m1",
      ({ player1 := { userId := "x", username := "Player", rating := 1000, timestamp := 200 }
         player2 := { userId := "y", username := "y", rating := 1500, timestamp := 101 }
         status := "ready", createdAt := 200 } : MatchDoc)) ∈
      (cleanupEverything
        { queue := []
          matchDocs := [("m1",
            { player1 := { userId := "x", username := "Player", rating := 1000, timestamp := 200 }
              player2 := { userId := "y", username := "y", rating := 1500, timestamp := 101 }
              status := "ready", createdAt := 200 })] } 300).matchDocs) ∧
    (("qy", yEntry) ∈ (removeFromQueue pairStore (some "qx")).queue) ∧
    ((removeFromQueue pairStore (some "qx")).matchDocs = pairStore.matchDocs) ∧
    (("qy", yEntry) ∈
      (upsertQueueEntry pairStore 300 { uid := "x", email := none } "n1").1.queue) ∧
    (("qy", yEntry) ∈
      (scanQueueForOpponents searchingX pairStore 200 { uid := "x", email := none } "m1").2.queue) :=
  ⟨C6_ownership_amended.1 _ 200 _ (by decide) (by decide),
   C6_ownership_amended.2.1 _ 300 _ (by decide) (by decide),
   C6_ownership_amended.2.2.1 _ (some "qx") _ (by decide) (by decide),
   C6_ownership_amended.2.2.2.1 pairStore (some "qx"),
   C6_ownership_amended.2.2.2.2.1 _ 300 _ "n1" _ (by decide) (by decide) (by decide),
   C6_ownership_amended.2.2.2.2.2 searchingX _ 200 _ "m1" _ (by decide) (by decide)⟩

/-- C3: a principal is never paired with itself — `isValidOpponent`
rejects a candidate carrying the caller's own userId, and every match
the immediate scan or the live queue listener creates pairs two
distinct userIds (any other match in the store after them was already
there). -/
theorem C3_no_self_match :
    (∀ (s : Store) (now : Nat) (uid : String) (cqid : Option String) (o : QueuePlayer),
      o.userId = uid → isValidOpponent s now uid cqid o = false) ∧
    (∀ (st : ClientState) (s : Store) (now : Nat) (u : AuthUser) (mid : String)
      (q : String × MatchDoc), q ∈ (scanQueueForOpponents st s now u mid).2.matchDocs →
      q ∈ s.matchDocs ∨ q.2.player1.userId ≠ q.2.player2.userId) ∧
    (∀ (st : ClientState) (s : Store) (now : Nat) (u : AuthUser) (mid : String)
      (changes : List (String × QueueData)) (q : String × MatchDoc),
      q ∈ (queueListenerSnapshot st s now u mid changes).2.matchDocs →
      q ∈ s.matchDocs ∨ q.2.player1.userId ≠ q.2.player2.userId) := by
  refine ⟨?_, ?_, ?_⟩
  · intro s now uid cqid o h
    unfold isValidOpponent
    rw [if_pos (Or.inl h)]
  · intro st s now u mid q hq
    unfold scanQueueForOpponents at hq
    split at hq
    · exact Or.inl hq
    · rcases scanLoop_matchDocs s now u mid _ st q hq with h | ⟨h1, h2⟩
      · exact Or.inl h
      · right
        rw [h1]
        exact fun hh => h2 hh.symm
  · intro st s now u mid changes q hq
    unfold queueListenerSnapshot at hq
    split at hq
    · exact Or.inl hq
    · rcases listenerLoop_matchDocs s now u mid changes st q hq with h | ⟨h1, h2⟩
      · exact Or.inl h
      · right
        rw [h1]
        exact fun hh => h2 hh.symm

theorem C3_no_self_match_witness :
    (isValidOpponent { queue := [], matchDocs := [] } 0 "u" none
      { id := "a", userId := "u", username := "u", rating := 1000
        timestamp := 0, status := "searching" } = false) ∧
    (("m1",
      ({ player1 := { userId := "x", username := "Player", rating := 1000, timestamp := 200 }
         player2 := { userId := "y", username := "y", rating := 1500, timestamp := 101 }
         status := "ready", createdAt := 200 } : MatchDoc)) ∈ pairStore.matchDocs ∨
      ("x" : String) ≠ "y") ∧
    (("m1",
      ({ player1 := { userId := "x", username := "Player", rating := 1000, timestamp := 200 }
         player2 := { userId := "y", username := "y", rating := 1500, timestamp := 101 }
         status := "ready", createdAt := 200 } : MatchDoc)) ∈ pairStore.matchDocs ∨
      ("x" : String) ≠ "y") :=
  ⟨C3_no_self_match.1 { queue := [], matchDocs := [] } 0 "u" none _ rfl,
   C3_no_self_match.2.1 searchingX pairStore 200 { uid := "x", email := none } "m1"
     _ (by decide),
   C3_no_self_match.2.2 searchingX pairStore 200 { uid := "x", email := none } "m1"
     [("qy", yEntry)] _ (by decide)⟩

theorem C8_txn_failure_witness :
    (createMatchFromQueue
      { currentQueueId := some "qx", currentUserId := some "x", isMatched := false
        isCreatingMatch := true, isJoiningQueue := false, heartbeatOn := true
        matchListenerOn := true, queueListenerOn := true }
      { queue := [], matchDocs := [] } 7 { uid := "x", email := none }
      { id := "qy", userId := "y", username := "y", rating := 1000
        timestamp := 0, status := "searching" } "m1").1.isMatched = false ∧
    (createMatchFromQueue
      { currentQueueId := some "qx", currentUserId := some "x", isMatched := false
        isCreatingMatch := true, isJoiningQueue := false, heartbeatOn := true
        matchListenerOn := true, queueListenerOn := true }
      { queue := [], matchDocs := [] } 7 { uid := "x", email := none }
      { id := "qy", userId := "y", username := "y", rating := 1000
        timestamp := 0, status := "searching" } "m1").1.isCreatingMatch = false ∧
    (createMatchFromQueue
      { currentQueueId := some "qx", currentUserId := some "x", isMatched := false
        isCreatingMatch := true, isJoiningQueue := false, heartbeatOn := true
        matchListenerOn := true, queueListenerOn := true }
      { queue := [], matchDocs := [] } 7 { uid := "x", email := none }
      { id := "qy", userId := "y", username := "y", rating := 1000
        timestamp := 0, status := "searching" } "m1").2 = { queue := [], matchDocs := [] } :=
  C8_txn_failure_recovery _ _ 7 _ _ "qx" "m1" "opponent-removed" rfl rfl rfl

/-- C7: `upsertQueueEntry` is idempotent per principal.  Under the data
model's well-formedness (unique document ids, a fresh store-assigned id,
positive creation timestamps, and distinct timestamps among the
principal's `searching` entries so that "the newest" is well defined):
the call returns the surviving id; afterwards exactly one `searching`
entry for the principal exists, fresh (`lastHeartbeat = timestamp =
now`, new session token); when duplicates existed the survivor is the
one with the strictly newest timestamp refreshed in place and every
other duplicate is deleted; when none existed a single new entry with
`timestamp = lastHeartbeat = now` is appended; entries that are not the
principal's `searching` entries are untouched.  Applied after a previous
join's upsert this gives the claim's two-calls-in-quick-succession
consequence: the second call finds the one fresh entry and refreshes it,
leaving exactly one. -/
theorem C7_upsert_idempotent (s : Store) (now : Nat) (u : AuthUser) (newId : String)
    (hnd : (s.queue.map Prod.fst).Nodup)
    (hts : ∀ p ∈ s.queue.filter (mineSearching u.uid), 0 < p.2.timestamp)
    (hdist : (s.queue.filter (mineSearching u.uid)).Pairwise
      (fun a b => a.2.timestamp ≠ b.2.timestamp)) :
    ∃ i e,
      (upsertQueueEntry s now u newId).2 = some i ∧
      (upsertQueueEntry s now u newId).1.queue.filter (mineSearching u.uid) = [(i, e)] ∧
      e.lastHeartbeat = now ∧ e.timestamp = now ∧ e.status = "searching" ∧
      e.userId = u.uid ∧ e.sessionId = u.uid ++ "_" ++ toString now ∧
      (s.queue.filter (mineSearching u.uid) = [] →
        i = newId ∧ e = newQueueEntry u now ∧
        (upsertQueueEntry s now u newId).1.queue = s.queue ++ [(newId, newQueueEntry u now)]) ∧
      (s.queue.filter (mineSearching u.uid) ≠ [] →
        ∃ d0, (i, d0) ∈ s.queue ∧ mineSearching u.uid (i, d0) = true ∧
          (∀ p ∈ s.queue.filter (mineSearching u.uid), p.1 ≠ i →
            p.2.timestamp < d0.timestamp) ∧
          e = refreshEntry d0 u.uid now) ∧
      (∀ p ∈ s.queue, mineSearching u.uid p = false →
        p ∈ (upsertQueueEntry s now u newId).1.queue) ∧
      (∀ p ∈ s.queue, mineSearching u.uid p = true → p.1 ≠ i →
        p.1 ∉ (upsertQueueEntry s now u newId).1.queue.map Prod.fst) := by
  by_cases hempty : s.queue.filter (mineSearching u.uid) = []
  · -- no searching entry for the principal: create a fresh one
    have hup : upsertQueueEntry s now u newId =
        ({ s with queue := s.queue ++ [(newId, newQueueEntry u now)] }, some newId) := by
      unfold upsertQueueEntry
      rw [if_pos (by simp [hempty])]
    refine ⟨newId, newQueueEntry u now, ?_, ?_, rfl, rfl, rfl, rfl, rfl, ?_, ?_, ?_, ?_⟩
    · rw [hup]
    · rw [hup]
      show (s.queue ++ [(newId, newQueueEntry u now)]).filter (mineSearching u.uid) = _
      rw [List.filter_append, hempty]
      simp [mineSearching, newQueueEntry]
    · intro _
      refine ⟨rfl, rfl, ?_⟩
      rw [hup]
    · intro hne
      exact absurd hempty hne
    · intro p hp _
      rw [hup]
      exact List.mem_append.2 (Or.inl hp)
    · intro p hp hmine _
      exact absurd (List.mem_filter.2 ⟨hp, hmine⟩) (by rw [hempty]; exact List.not_mem_nil p)
  · -- duplicates exist: refresh the newest, delete the others
    obtain ⟨q, hqsnap, hpick⟩ :
        ∃ q ∈ s.queue.filter (mineSearching u.uid),
          pickNewestAux (none, 0) (s.queue.filter (mineSearching u.uid)) =
            (some q.1, q.2.timestamp) := by
      rcases pickNewestAux_mem (s.queue.filter (mineSearching u.uid)) (none, 0) with hacc | h
      · exfalso
        obtain ⟨q0, hq0⟩ := List.exists_mem_of_ne_nil _ hempty
        have := (pickNewestAux_ge (s.queue.filter (mineSearching u.uid)) (none, 0)).2 q0 hq0
        rw [hacc] at this
        exact absurd (lt_of_lt_of_le (hts q0 hq0) this) (by simp)
      · exact h
    have hqmem : q ∈ s.queue := (List.mem_filter.1 hqsnap).1
    have hqmine : mineSearching u.uid q = true := (List.mem_filter.1 hqsnap).2
    have hquid : q.2.userId = u.uid := by
      have := hqmine
      unfold mineSearching at this
      simp only [Bool.and_eq_true, decide_eq_true_eq] at this
      exact this.1
    have hmax : ∀ p ∈ s.queue.filter (mineSearching u.uid), p.2.timestamp ≤ q.2.timestamp := by
      intro p hp
      have := (pickNewestAux_ge (s.queue.filter (mineSearching u.uid)) (none, 0)).2 p hp
      rw [hpick] at this
      exact this
    have hup : upsertQueueEntry s now u newId =
        ({ s with queue :=
            ((s.queue.map (updFn q.1 u.uid now)).filter
              (keepFn q.1 ((s.queue.filter (mineSearching u.uid)).map Prod.fst))) },
         some q.1) := by
      unfold upsertQueueEntry
      rw [if_neg (by simp [hempty])]
      rw [hpick]
    have hkeynotin : ∀ p ∈ s.queue, mineSearching u.uid p = false →
        p.1 ∉ (s.queue.filter (mineSearching u.uid)).map Prod.fst := by
      intro p hp hmine hmem
      obtain ⟨r, hr, hr1⟩ := List.mem_map.1 hmem
      have hrs := List.mem_filter.1 hr
      have : p = r := key_unique hnd hp hrs.1 hr1.symm
      rw [this] at hmine
      rw [hrs.2] at hmine
      cases hmine
    refine ⟨q.1, refreshEntry q.2 u.uid now, ?_, ?_, rfl, rfl, rfl, ?_, rfl, ?_, ?_, ?_, ?_⟩
    · rw [hup]
    · rw [hup]
      show ((s.queue.map _).filter _).filter (mineSearching u.uid) = _
      rw [List.filter_filter, List.filter_map]
      have hcong : s.queue.filter
          ((fun a => mineSearching u.uid a &&
            keepFn q.1 ((s.queue.filter (mineSearching u.uid)).map Prod.fst) a) ∘
            updFn q.1 u.uid now) =
          s.queue.filter (fun p => decide (p.1 = q.1)) := by
        apply List.filter_congr
        intro a ha
        by_cases hak : a.1 = q.1
        · have haq : a = q := key_unique hnd ha hqmem hak
          subst haq
          have hmine2 : mineSearching u.uid (a.1, refreshEntry a.2 u.uid now) = true := by
            unfold mineSearching refreshEntry
            simp [hquid]
          simp [Function.comp, updFn, keepFn, hmine2]
        · have hupd : updFn q.1 u.uid now a = a := by
            unfold updFn
            rw [if_neg hak]
          by_cases hmine : mineSearching u.uid a = true
          · have hin : a.1 ∈ (s.queue.filter (mineSearching u.uid)).map Prod.fst :=
              List.mem_map_of_mem Prod.fst (List.mem_filter.2 ⟨ha, hmine⟩)
            simp [Function.comp, hupd, hmine, keepFn, hak, hin]
          · simp only [Bool.not_eq_true] at hmine
            simp [Function.comp, hupd, hmine, keepFn, hak]
      rw [hcong, filter_key_unique hnd (show (q.1, q.2) ∈ s.queue from hqmem)]
      simp [updFn]
    · show (refreshEntry q.2 u.uid now).userId = u.uid
      unfold refreshEntry
      exact hquid
    · intro habs
      exact absurd habs hempty
    · intro _
      refine ⟨q.2, hqmem, hqmine, ?_, rfl⟩
      intro p hp hpne
      have hle := hmax p hp
      have hne : p.2.timestamp ≠ q.2.timestamp := by
        have hpq : p ≠ q := fun hh => hpne (by rw [hh])
        exact List.Pairwise.forall (fun a b hab => Ne.symm hab) hdist hp hqsnap hpq
      omega
    · intro p hp hmine
      rw [hup]
      have hpk : ¬ p.1 = q.1 := by
        intro hh
        have : p = q := key_unique hnd hp hqmem hh
        rw [this, hqmine] at hmine
        cases hmine
      refine List.mem_filter.2 ⟨?_, ?_⟩
      · refine List.mem_map.2 ⟨p, hp, ?_⟩
        unfold updFn
        rw [if_neg hpk]
      · simp only [keepFn, Bool.or_eq_true, decide_eq_true_eq]
        right
        exact hkeynotin p hp hmine
    · intro p hp hmine hpne
      rw [hup]
      intro hmem
      obtain ⟨r, hr, hr1⟩ := List.mem_map.1 hmem
      have hrk := List.mem_filter.1 hr
      obtain ⟨a, ha, hupd⟩ := List.mem_map.1 hrk.1
      have hkeep := hrk.2
      simp only [keepFn, Bool.or_eq_true, decide_eq_true_eq] at hkeep
      rcases hkeep with hkeep | hkeep
      · exact hpne (by rw [← hr1, hkeep])
      · exact hkeep (by
          rw [hr1]
          exact List.mem_map_of_mem Prod.fst (List.mem_filter.2 ⟨hp, hmine⟩))

theorem C7_upsert_witness :
    (upsertQueueEntry pairStore 300 { uid := "x", email := none } "n1").2 = some "qx" ∧
    (upsertQueueEntry pairStore 300 { uid := "x", email := none } "n1").1.queue.filter
      (mineSearching "x") = [("qx", refreshEntry xEntry "x" 300)] ∧
    ("qy", yEntry) ∈ (upsertQueueEntry pairStore 300 { uid := "x", email := none } "n1").1.queue := by
  obtain ⟨i, e, hrest⟩ :=
    C7_upsert_idempotent pairStore 300 { uid := "x", email := none } "n1"
      (by decide) (by decide) (by decide)
  exact ⟨by decide, by decide,
    hrest.2.2.2.2.2.2.2.2.2.1 ("qy", yEntry) (by decide) (by decide)⟩

/-- C1: in the two-client race where each searching principal targets
the other's queue entry with concurrent `createMatchFromQueue` attempts,
every interleaving of attempts creates at most one match referencing the
pair (the count is monotone and never deleted by attempts, so this bound
holds at every prefix as well, by instantiating the first conjunct at
the prefix), and when the first attempt finds both entries `searching`
and fresh (age at most 10000 ms) exactly one match referencing the pair
exists at the end: the first transaction commits and deletes its own
entry, which invalidates every later attempt's precondition.  Each
attempt is one `createMatchFromQueue` call: between transactions a
client touches only its own local fields and the transaction is a single
serializable store step, so this schedule captures every observable
interleaving. -/
theorem C1_race_at_most_one_match (x y : AuthUser) (idX idY : String)
    (dX dY : QueueData) (oppX oppY : QueuePlayer) (stX stY : ClientState)
    (attempts : List Attempt)
    (hxy : x.uid ≠ y.uid) (hid : idX ≠ idY)
    (hx1 : oppX.id = idY) (hx2 : oppX.userId = y.uid)
    (hy1 : oppY.id = idX) (hy2 : oppY.userId = x.uid)
    (hX1 : stX.currentQueueId = some idX) (hX2 : stX.isMatched = false)
    (hY1 : stY.currentQueueId = some idY) (hY2 : stY.isMatched = false) :
    countBoth x.uid y.uid
      (raceRun x y oppX oppY
        ⟨{ queue := [(idX, dX), (idY, dY)], matchDocs := [] }, stX, stY⟩ attempts).store ≤ 1 ∧
    (∀ a rest, attempts = a :: rest →
      dX.status = "searching" → dY.status = "searching" →
      ageOf a.now dX ≤ 10000 → ageOf a.now dY ≤ 10000 →
      countBoth x.uid y.uid
        (raceRun x y oppX oppY
          ⟨{ queue := [(idX, dX), (idY, dY)], matchDocs := [] }, stX, stY⟩ attempts).store = 1) := by
  have e1 : getQueueDoc { queue := [(idX, dX), (idY, dY)], matchDocs := [] } idX = some dX := by
    unfold getQueueDoc
    dsimp only
    rw [List.find?_cons_of_pos _ (by simp)]
    rfl
  have e2 : getQueueDoc { queue := [(idX, dX), (idY, dY)], matchDocs := [] } idY = some dY := by
    unfold getQueueDoc
    dsimp only
    rw [List.find?_cons_of_neg _ (by simp [hid]), List.find?_cons_of_pos _ (by simp)]
    rfl
  have hInv0 : QInv x y idX idY
      ⟨{ queue := [(idX, dX), (idY, dY)], matchDocs := [] }, stX, stY⟩ := by
    refine ⟨Or.inl hX1, Or.inl hY1, ?_, ?_⟩
    · simp [countBoth]
    · intro hh
      simp [countBoth] at hh
  constructor
  · exact ((raceRun_inv x y oppX oppY idX idY hx1 hx2 hy1 hy2 attempts _ hInv0).1).2.2.1
  · intro a rest heq hs1 hs2 ha1 ha2
    subst heq
    by_cases hwho : a.who = true
    · obtain ⟨hstore, hqnone⟩ :=
        createMatch_commits stX { queue := [(idX, dX), (idY, dY)], matchDocs := [] }
          a.now x oppX idX a.mid dY dX hX2 hX1 (by rw [hx1]; exact e2) e1 hs2 hs1 ha2 ha1
      have hred : raceStep x y oppX oppY
          ⟨{ queue := [(idX, dX), (idY, dY)], matchDocs := [] }, stX, stY⟩ a =
          ⟨(createMatchFromQueue stX { queue := [(idX, dX), (idY, dY)], matchDocs := [] }
              a.now x oppX a.mid).2,
           (createMatchFromQueue stX { queue := [(idX, dX), (idY, dY)], matchDocs := [] }
              a.now x oppX a.mid).1, stY⟩ := by
        unfold raceStep
        rw [if_pos hwho]
      have hc1 : countBoth x.uid y.uid
          (createMatchFromQueue stX { queue := [(idX, dX), (idY, dY)], matchDocs := [] }
            a.now x oppX a.mid).2 = 1 := by
        rw [hstore]
        unfold countBoth
        simp [refBoth, mkMatchDoc, hx2]
      have hInv1 : QInv x y idX idY (raceStep x y oppX oppY
          ⟨{ queue := [(idX, dX), (idY, dY)], matchDocs := [] }, stX, stY⟩ a) := by
        rw [hred]
        refine ⟨Or.inr hqnone, Or.inl hY1, le_of_eq hc1, ?_⟩
        intro _
        left
        show getQueueDoc (createMatchFromQueue stX
          { queue := [(idX, dX), (idY, dY)], matchDocs := [] } a.now x oppX a.mid).2 idX = none
        rw [hstore]
        exact getQueueDoc_filter_self _ _ idX
      obtain ⟨hfin, hmono⟩ := raceRun_inv x y oppX oppY idX idY hx1 hx2 hy1 hy2 rest _ hInv1
      have hle1 := hfin.2.2.1
      have hge1 : 1 ≤ countBoth x.uid y.uid (raceRun x y oppX oppY (raceStep x y oppX oppY
          ⟨{ queue := [(idX, dX), (idY, dY)], matchDocs := [] }, stX, stY⟩ a) rest).store := by
        refine le_trans (le_of_eq ?_) hmono
        rw [hred]
        exact hc1.symm
      show countBoth x.uid y.uid (raceRun x y oppX oppY (raceStep x y oppX oppY
          ⟨{ queue := [(idX, dX), (idY, dY)], matchDocs := [] }, stX, stY⟩ a) rest).store = 1
      omega
    · obtain ⟨hstore, hqnone⟩ :=
        createMatch_commits stY { queue := [(idX, dX), (idY, dY)], matchDocs := [] }
          a.now y oppY idY a.mid dX dY hY2 hY1 (by rw [hy1]; exact e1) e2 hs1 hs2 ha1 ha2
      have hred : raceStep x y oppX oppY
          ⟨{ queue := [(idX, dX), (idY, dY)], matchDocs := [] }, stX, stY⟩ a =
          ⟨(createMatchFromQueue stY { queue := [(idX, dX), (idY, dY)], matchDocs := [] }
              a.now y oppY a.mid).2, stX,
           (createMatchFromQueue stY { queue := [(idX, dX), (idY, dY)], matchDocs := [] }
              a.now y oppY a.mid).1⟩ := by
        unfold raceStep
        rw [if_neg hwho]
      have hc1 : countBoth x.uid y.uid
          (createMatchFromQueue stY { queue := [(idX, dX), (idY, dY)], matchDocs := [] }
            a.now y oppY a.mid).2 = 1 := by
        rw [hstore]
        unfold countBoth
        simp [refBoth, mkMatchDoc, hy2]
      have hInv1 : QInv x y idX idY (raceStep x y oppX oppY
          ⟨{ queue := [(idX, dX), (idY, dY)], matchDocs := [] }, stX, stY⟩ a) := by
        rw [hred]
        refine ⟨Or.inl hX1, Or.inr hqnone, le_of_eq hc1, ?_⟩
        intro _
        right
        show getQueueDoc (createMatchFromQueue stY
          { queue := [(idX, dX), (idY, dY)], matchDocs := [] } a.now y oppY a.mid).2 idY = none
        rw [hstore]
        exact getQueueDoc_filter_self _ _ idY
      obtain ⟨hfin, hmono⟩ := raceRun_inv x y oppX oppY idX idY hx1 hx2 hy1 hy2 rest _ hInv1
      have hle1 := hfin.2.2.1
      have hge1 : 1 ≤ countBoth x.uid y.uid (raceRun x y oppX oppY (raceStep x y oppX oppY
          ⟨{ queue := [(idX, dX), (idY, dY)], matchDocs := [] }, stX, stY⟩ a) rest).store := by
        refine le_trans (le_of_eq ?_) hmono
        rw [hred]
        exact hc1.symm
      show countBoth x.uid y.uid (raceRun x y oppX oppY (raceStep x y oppX oppY
          ⟨{ queue := [(idX, dX), (idY, dY)], matchDocs := [] }, stX, stY⟩ a) rest).store = 1
      omega

theorem C1_race_witness :
    countBoth "x" "y"
      (raceRun { uid := "x", email := none } { uid := "y", email := none } cachedOppY cachedOppX
        ⟨{ queue := [("qx", xEntry), ("qy", yEntry)], matchDocs := [] },
         searchingX, searchingY⟩
        [{ who := true, now := 200, mid := "m1" },
         { who := false, now := 201, mid := "m2" }]).store = 1 :=
  (C1_race_at_most_one_match { uid := "x", email := none } { uid := "y", email := none }
    "qx" "qy" xEntry yEntry cachedOppY cachedOppX searchingX searchingY
    [{ who := true, now := 200, mid := "m1" }, { who := false, now := 201, mid := "m2" }]
    (by decide) (by decide) rfl rfl rfl rfl rfl rfl rfl rfl).2
    { who := true, now := 200, mid := "m1" } [{ who := false, now := 201, mid := "m2" }]
    rfl rfl rfl (by decide) (by decide)

end Conquest
